import Mathlib

/-
Verification of the weight-registry state machine of the index-fund contract
(src/src/lib.rs). The contract state `IndexFund`, its construction, the
one-time curator registration, and the validated batch weight update are
embedded as executable Lean definitions; the NEAR host environment
(predecessor account, block timestamp, attached deposit, storage byte cost)
is modelled as an explicit `Env` record, and the panics raised by
`require!` / `expect` are modelled as error values returned together with
the (rolled-back, hence unchanged) contract state.
-/

namespace IndexFundContract

/-- Account identifiers are opaque string-like values (near_sdk `AccountId`). -/
abbrev AccountId := String

/-- Asset identifiers are account identifiers (`pub type AssetId = AccountId`). -/
abbrev AssetId := AccountId

/-- Mirror of `AssetWeight`: a transient batch entry, weight in basis points. -/
structure AssetWeight where
  weight : Nat
  asset_address : AssetId
deriving Repr, DecidableEq

/-- Mirror of `AssetHolding`: the persisted per-asset record. -/
structure AssetHolding where
  balance : Nat
  weight : Nat
  last_price : Nat
  last_updated : Nat
deriving Repr, DecidableEq

/-- The persisted asset map (`UnorderedMap<AssetId, AssetHolding>`), embedded as
an association list with insert-replaces-existing-key semantics. -/
abbrev AssetMap := List (AssetId × AssetHolding)

/-- A weight snapshot keyed by asset id (the `HashMap<AccountId, U64>` used for
validation inside `update_weights`). -/
abbrev WeightMap := List (AssetId × Nat)

/-- Key lookup in an association list: first entry with the given key. -/
def lookupKV {α : Type} : List (AssetId × α) → AssetId → Option α
  | [], _ => none
  | (k, v) :: rest, a => if k = a then some v else lookupKV rest a

/-- Key insert in an association list: replace the value at an existing key,
otherwise append a new entry (the semantics of both `UnorderedMap::insert`
and `HashMap::insert`). -/
def insertKV {α : Type} : List (AssetId × α) → AssetId → α → List (AssetId × α)
  | [], a, v => [(a, v)]
  | (k, w) :: rest, a, v =>
      if k = a then (a, v) :: rest else (k, w) :: insertKV rest a v

/-- Mirror of the `IndexFund` contract state. -/
structure IndexFund where
  curator_address : Option AccountId
  assets : AssetMap
  last_rebalance : Nat
  rebalance_interval : Nat
deriving Repr, DecidableEq

/-- Mirror of `impl Default for IndexFund`. -/
def IndexFund.default_fund : IndexFund :=
  { curator_address := none
    assets := []
    last_rebalance := 0
    rebalance_interval := 86400 }

/-- The ambient NEAR host environment read by the contract methods. -/
structure Env where
  predecessor_account_id : AccountId
  block_timestamp : Nat
  attached_deposit : Nat
  storage_byte_cost : Nat
deriving Repr, DecidableEq

/-- The distinct panic messages raised by the contract, as error values. -/
inductive ContractError
  | invalidRebalanceInterval
  | curatorAlreadyRegistered
  | insufficientStorageDeposit
  | curatorNotRegistered
  | unauthorized
  | invalidWeightSum
deriving Repr, DecidableEq

/-- Mirror of `IndexFund::new`: `require!(rebalance_interval > U64(0))`. -/
def IndexFund.new (rebalance_interval : Nat) : Except ContractError IndexFund :=
  if 0 < rebalance_interval then
    Except.ok
      { curator_address := none
        assets := []
        last_rebalance := 0
        rebalance_interval := rebalance_interval }
  else
    Except.error ContractError.invalidRebalanceInterval

/-- Mirror of `register_curator`: requires no curator yet, then an attached
deposit of at least `storage_byte_cost * 100`; on success stores the
candidate identity. A failure returns the untouched state. -/
def register_curator (env : Env) (st : IndexFund) (curator_address : AccountId) :
    Option ContractError × IndexFund :=
  match st.curator_address with
  | some _ => (some ContractError.curatorAlreadyRegistered, st)
  | none =>
      if env.attached_deposit < env.storage_byte_cost * 100 then
        (some ContractError.insufficientStorageDeposit, st)
      else
        (none, { st with curator_address := some curator_address })

/-- The validation snapshot seed: every stored asset mapped to its current
weight (`self.assets.iter().map(|(k, v)| (k, v.weight)).collect()`). -/
def weightSnapshot (assets : AssetMap) : WeightMap :=
  assets.map (fun kv => (kv.1, kv.2.weight))

/-- Applying the batch to the snapshot, in sequence
(`for update in updates.iter() { new_weights.insert(...) }`). -/
def applyUpdates (m : WeightMap) (updates : List AssetWeight) : WeightMap :=
  updates.foldl (fun acc u => insertKV acc u.asset_address u.weight) m

/-- The weight sum of a snapshot (`new_weights.values().sum()`). -/
def totalWeight (m : WeightMap) : Nat :=
  (m.map Prod.snd).sum

/-- One commit-loop iteration of `update_weights`: an existing holding gets
only its `weight` field overwritten; a missing one is inserted fresh with
zero balance and price and `last_updated` set to the block timestamp. -/
def commitOne (ts : Nat) (assets : AssetMap) (u : AssetWeight) : AssetMap :=
  match lookupKV assets u.asset_address with
  | some holding =>
      insertKV assets u.asset_address { holding with weight := u.weight }
  | none =>
      insertKV assets u.asset_address
        { balance := 0, weight := u.weight, last_price := 0, last_updated := ts }

/-- The full commit loop (`for update in &updates { ... }`). -/
def commitUpdates (ts : Nat) (assets : AssetMap) (updates : List AssetWeight) : AssetMap :=
  updates.foldl (commitOne ts) assets

/-- Mirror of `update_weights`: curator must be registered, the caller must be
the curator, the merged snapshot must sum to 10000; only then is the batch
committed. Each failure returns the untouched state (a NEAR panic rolls the
transaction back, and the code performs no write before its checks). -/
def update_weights (env : Env) (st : IndexFund) (updates : List AssetWeight) :
    Option ContractError × IndexFund :=
  match st.curator_address with
  | none => (some ContractError.curatorNotRegistered, st)
  | some curator =>
      if env.predecessor_account_id ≠ curator then
        (some ContractError.unauthorized, st)
      else
        if totalWeight (applyUpdates (weightSnapshot st.assets) updates) ≠ 10000 then
          (some ContractError.invalidWeightSum, st)
        else
          (none, { st with assets := commitUpdates env.block_timestamp st.assets updates })

/-- Mirror of `get_weights`. -/
def get_weights (st : IndexFund) : List AssetWeight :=
  st.assets.map (fun kv => { weight := kv.2.weight, asset_address := kv.1 })

/-- Mirror of `get_assets`. -/
def get_assets (st : IndexFund) : List AssetId :=
  st.assets.map Prod.fst

/-- The registry states reachable by successful operations from construction. -/
inductive Reachable : IndexFund → Prop
  | default_init : Reachable IndexFund.default_fund
  | new_init (interval : Nat) (st : IndexFund) :
      IndexFund.new interval = Except.ok st → Reachable st
  | register_step (env : Env) (st : IndexFund) (cand : AccountId) (st' : IndexFund) :
      Reachable st → register_curator env st cand = (none, st') → Reachable st'
  | update_step (env : Env) (st : IndexFund) (updates : List AssetWeight) (st' : IndexFund) :
      Reachable st → update_weights env st updates = (none, st') → Reachable st'

/-! ### Basic association-list lemmas -/

theorem lookupKV_insertKV {α : Type} (l : List (AssetId × α)) (a b : AssetId) (v : α) :
    lookupKV (insertKV l a v) b = if a = b then some v else lookupKV l b := by
  induction l with
  | nil => simp [insertKV, lookupKV]
  | cons kv rest ih =>
      obtain ⟨k, w⟩ := kv
      by_cases hka : k = a
      · subst hka
        by_cases hkb : k = b <;> simp [insertKV, lookupKV, hkb]
      · by_cases hab : a = b
        · subst hab
          simp [insertKV, lookupKV, hka, ih]
        · simp only [insertKV, if_neg hka, lookupKV]
          by_cases hkb : k = b <;> simp [hkb, ih, hab]

theorem weightSnapshot_insertKV (a : AssetMap) (k : AssetId) (h : AssetHolding) :
    weightSnapshot (insertKV a k h) = insertKV (weightSnapshot a) k h.weight := by
  induction a with
  | nil => simp [insertKV, weightSnapshot]
  | cons kv rest ih =>
      obtain ⟨k0, h0⟩ := kv
      by_cases hk : k0 = k
      · simp [insertKV, weightSnapshot, hk]
      · simp only [insertKV, if_neg hk, weightSnapshot, List.map_cons]
        simpa [weightSnapshot] using ih

/-! ### The commit loop tracked through the snapshot -/

theorem weightSnapshot_commitOne (ts : Nat) (a : AssetMap) (u : AssetWeight) :
    weightSnapshot (commitOne ts a u) =
      insertKV (weightSnapshot a) u.asset_address u.weight := by
  unfold commitOne
  cases hl : lookupKV a u.asset_address <;> simp [weightSnapshot_insertKV]

theorem weightSnapshot_commitUpdates (ts : Nat) (updates : List AssetWeight) (a : AssetMap) :
    weightSnapshot (commitUpdates ts a updates) =
      applyUpdates (weightSnapshot a) updates := by
  induction updates generalizing a with
  | nil => rfl
  | cons u us ih =>
      simp only [commitUpdates, applyUpdates, List.foldl_cons]
      rw [show us.foldl (commitOne ts) (commitOne ts a u) = commitUpdates ts (commitOne ts a u) us from rfl]
      rw [ih, weightSnapshot_commitOne]
      rfl

theorem lookupKV_commitOne (ts : Nat) (a : AssetMap) (u : AssetWeight) (k : AssetId) :
    lookupKV (commitOne ts a u) k =
      if u.asset_address = k then
        some (match lookupKV a k with
          | some h => { h with weight := u.weight }
          | none => { balance := 0, weight := u.weight, last_price := 0, last_updated := ts })
      else lookupKV a k := by
  unfold commitOne
  by_cases hk : u.asset_address = k
  · subst hk
    cases hl : lookupKV a u.asset_address <;> simp [lookupKV_insertKV, hl]
  · cases hl : lookupKV a u.asset_address <;> simp [lookupKV_insertKV, hk]

/-! ### Frame lemma: existing holdings keep balance, price and timestamp -/

theorem commitUpdates_frame (ts : Nat) (updates : List AssetWeight) (a : AssetMap)
    (k : AssetId) (h : AssetHolding) (hl : lookupKV a k = some h) :
    ∃ h2, lookupKV (commitUpdates ts a updates) k = some h2 ∧
      h2.balance = h.balance ∧ h2.last_price = h.last_price ∧
      h2.last_updated = h.last_updated := by
  induction updates generalizing a h with
  | nil => exact ⟨h, hl, rfl, rfl, rfl⟩
  | cons u us ih =>
      simp only [commitUpdates, List.foldl_cons]
      by_cases hk : u.asset_address = k
      · exact ih (commitOne ts a u) { h with weight := u.weight }
          (by rw [lookupKV_commitOne, if_pos hk, hl])
      · exact ih (commitOne ts a u) h (by rw [lookupKV_commitOne, if_neg hk]; exact hl)

/-! ### Last-write-wins tracking -/

/-- The weight of the last occurrence of key `k` in the batch, continuing from
an accumulator (the value the key would have if no batch entry matched). -/
def lastWeightFrom (acc : Option Nat) (updates : List AssetWeight) (k : AssetId) : Option Nat :=
  updates.foldl (fun a u => if u.asset_address = k then some u.weight else a) acc

/-- The weight of the last occurrence of key `k` in the batch, if any. -/
def lastWeight (updates : List AssetWeight) (k : AssetId) : Option Nat :=
  lastWeightFrom none updates k

theorem lookupKV_applyUpdates (updates : List AssetWeight) (m : WeightMap) (k : AssetId) :
    lookupKV (applyUpdates m updates) k = lastWeightFrom (lookupKV m k) updates k := by
  induction updates generalizing m with
  | nil => rfl
  | cons u us ih =>
      simp only [applyUpdates, List.foldl_cons, lastWeightFrom]
      rw [show us.foldl (fun acc v => insertKV acc v.asset_address v.weight)
            (insertKV m u.asset_address u.weight) =
          applyUpdates (insertKV m u.asset_address u.weight) us from rfl]
      rw [ih, lookupKV_insertKV]
      rfl

theorem weight_commitUpdates (ts : Nat) (updates : List AssetWeight) (a : AssetMap)
    (k : AssetId) :
    (lookupKV (commitUpdates ts a updates) k).map AssetHolding.weight =
      lastWeightFrom ((lookupKV a k).map AssetHolding.weight) updates k := by
  induction updates generalizing a with
  | nil => rfl
  | cons u us ih =>
      simp only [commitUpdates, List.foldl_cons, lastWeightFrom]
      rw [show us.foldl (commitOne ts) (commitOne ts a u) = commitUpdates ts (commitOne ts a u) us from rfl]
      rw [ih]
      by_cases hk : u.asset_address = k
      · rw [lookupKV_commitOne, if_pos hk]
        cases hl : lookupKV a k <;> simp [hk, lastWeightFrom]
      · rw [lookupKV_commitOne, if_neg hk]
        simp [hk, lastWeightFrom]

theorem lastWeightFrom_some (updates : List AssetWeight) (k : AssetId) (w : Nat)
    (acc : Option Nat) (h : lastWeight updates k = some w) :
    lastWeightFrom acc updates k = some w := by
  induction updates generalizing acc with
  | nil => exact absurd h (by simp [lastWeight, lastWeightFrom])
  | cons u us ih =>
      simp only [lastWeight, lastWeightFrom, List.foldl_cons] at h ⊢
      by_cases hk : u.asset_address = k
      · simpa [hk] using h
      · simp only [if_neg hk] at h ⊢
        exact ih acc h

/-! ### Characterization of the success and failure branches -/

theorem update_weights_ok_elim (env : Env) (st : IndexFund) (updates : List AssetWeight)
    (st' : IndexFund) (h : update_weights env st updates = (none, st')) :
    st' = { st with assets := commitUpdates env.block_timestamp st.assets updates } ∧
    totalWeight (applyUpdates (weightSnapshot st.assets) updates) = 10000 ∧
    ∃ c, st.curator_address = some c ∧ env.predecessor_account_id = c := by
  unfold update_weights at h
  split at h
  · exact absurd h (by simp)
  · next curator hc =>
      by_cases hauth : env.predecessor_account_id ≠ curator
      · rw [if_pos hauth] at h; exact absurd h (by simp)
      · rw [if_neg hauth] at h
        by_cases hsum : totalWeight (applyUpdates (weightSnapshot st.assets) updates) ≠ 10000
        · rw [if_pos hsum] at h; exact absurd h (by simp)
        · rw [if_neg hsum] at h
          refine ⟨(Prod.mk.injEq _ _ _ _ ▸ h).2.symm, not_not.mp hsum,
            curator, hc, not_not.mp hauth⟩

theorem update_weights_err_elim (env : Env) (st : IndexFund) (updates : List AssetWeight)
    (e : ContractError) (st' : IndexFund)
    (h : update_weights env st updates = (some e, st')) : st' = st := by
  unfold update_weights at h
  split at h
  · exact ((Prod.mk.injEq _ _ _ _ ▸ h).2).symm
  · next curator hc =>
      by_cases hauth : env.predecessor_account_id ≠ curator
      · rw [if_pos hauth] at h; exact ((Prod.mk.injEq _ _ _ _ ▸ h).2).symm
      · rw [if_neg hauth] at h
        by_cases hsum : totalWeight (applyUpdates (weightSnapshot st.assets) updates) ≠ 10000
        · rw [if_pos hsum] at h; exact ((Prod.mk.injEq _ _ _ _ ▸ h).2).symm
        · rw [if_neg hsum] at h; exact absurd h (by simp)

theorem register_curator_ok_elim (env : Env) (st : IndexFund) (cand : AccountId)
    (st' : IndexFund) (h : register_curator env st cand = (none, st')) :
    st.curator_address = none ∧
    env.storage_byte_cost * 100 ≤ env.attached_deposit ∧
    st' = { st with curator_address := some cand } := by
  unfold register_curator at h
  split at h
  · exact absurd h (by simp)
  · next hc =>
      by_cases hdep : env.attached_deposit < env.storage_byte_cost * 100
      · rw [if_pos hdep] at h; exact absurd h (by simp)
      · rw [if_neg hdep] at h
        exact ⟨hc, Nat.le_of_not_lt hdep, ((Prod.mk.injEq _ _ _ _ ▸ h).2).symm⟩

/-- Every individual weight in a snapshot is bounded by the snapshot's total. -/
theorem weight_le_totalWeight (m : WeightMap) (kv : AssetId × Nat) (hm : kv ∈ m) :
    kv.2 ≤ totalWeight m := by
  induction m with
  | nil => cases hm
  | cons p rest ih =>
      rcases List.mem_cons.mp hm with hp | hrest
      · subst hp; simp [totalWeight]
      · calc kv.2 ≤ totalWeight rest := ih hrest
          _ ≤ totalWeight (p :: rest) := by simp [totalWeight]

/-! ### Concrete fixtures used by the witness theorems -/

/-- A controlled registry with an empty asset map. -/
def wFund : IndexFund :=
  { curator_address := some "curator.near"
    assets := []
    last_rebalance := 0
    rebalance_interval := 86400 }

/-- A host environment whose caller is the registered curator. -/
def wEnv : Env :=
  { predecessor_account_id := "curator.near"
    block_timestamp := 100
    attached_deposit := 0
    storage_byte_cost := 0 }

/-- A host environment whose caller is not the curator. -/
def xEnv : Env :=
  { predecessor_account_id := "mallory.near"
    block_timestamp := 100
    attached_deposit := 0
    storage_byte_cost := 0 }

/-- A valid batch: two assets at 6000 and 4000 basis points. -/
def wBatch : List AssetWeight :=
  [⟨6000, "asset1.near"⟩, ⟨4000, "asset2.near"⟩]

/-- A registration environment with a deposit above the storage threshold. -/
def regEnvHigh : Env :=
  { predecessor_account_id := "anyone.near"
    block_timestamp := 0
    attached_deposit := 1000000
    storage_byte_cost := 1 }

/-! ### Claim theorems -/

/-- C1: whenever `update_weights` succeeds, the weights stored in the registry
afterwards (including assets present before the call and untouched by the
batch) sum to exactly 10000 basis points. -/
theorem update_weights_sum_invariant (env : Env) (st : IndexFund)
    (updates : List AssetWeight) (st' : IndexFund)
    (h : update_weights env st updates = (none, st')) :
    totalWeight (weightSnapshot st'.assets) = 10000 := by
  obtain ⟨hst, hsum, -⟩ := update_weights_ok_elim env st updates st' h
  subst hst
  simpa [weightSnapshot_commitUpdates] using hsum

theorem update_weights_sum_invariant_witness :
    totalWeight (weightSnapshot ((update_weights wEnv wFund wBatch).2).assets) = 10000 :=
  update_weights_sum_invariant wEnv wFund wBatch _ rfl

/-- C2: a call that fails with the invalid-weight-sum error leaves the stored
asset map (every key and every holding field) exactly as it was before the
call; no batch entry is partially applied. -/
theorem update_weights_invalid_sum_atomic (env : Env) (st : IndexFund)
    (updates : List AssetWeight) (st' : IndexFund)
    (h : update_weights env st updates = (some ContractError.invalidWeightSum, st')) :
    st'.assets = st.assets := by
  rw [update_weights_err_elim env st updates _ st' h]

theorem update_weights_invalid_sum_atomic_witness :
    ((update_weights wEnv wFund [⟨5000, "asset1.near"⟩]).2).assets = wFund.assets :=
  update_weights_invalid_sum_atomic wEnv wFund [⟨5000, "asset1.near"⟩] _ rfl

/-- C3: with a curator registered, a call by any other identity fails with the
unauthorized error and returns the registry completely unchanged, even when
the batch would produce a valid weight sum. -/
theorem update_weights_unauthorized_no_mutation (env : Env) (st : IndexFund)
    (updates : List AssetWeight) (curator : AccountId)
    (hc : st.curator_address = some curator)
    (hne : env.predecessor_account_id ≠ curator) :
    update_weights env st updates = (some ContractError.unauthorized, st) := by
  simp [update_weights, hc, hne]

theorem update_weights_unauthorized_no_mutation_witness :
    update_weights xEnv wFund [⟨10000, "asset1.near"⟩] =
      (some ContractError.unauthorized, wFund) :=
  update_weights_unauthorized_no_mutation xEnv wFund [⟨10000, "asset1.near"⟩]
    "curator.near" rfl (by decide)

/-- C4: once a curator is stored, every further registration attempt fails
with the already-registered error, for every candidate identity and every
attached deposit (including deposits above the storage threshold), and the
stored curator identity is unchanged. -/
theorem register_curator_already_registered (env : Env) (st : IndexFund)
    (cand curator : AccountId) (hc : st.curator_address = some curator) :
    register_curator env st cand = (some ContractError.curatorAlreadyRegistered, st) := by
  simp [register_curator, hc]

theorem register_curator_already_registered_witness :
    register_curator regEnvHigh wFund "other.near" =
      (some ContractError.curatorAlreadyRegistered, wFund) :=
  register_curator_already_registered regEnvHigh wFund "other.near" "curator.near" rfl

/-- The state reached by registering a curator on the default registry. -/
def regFund : IndexFund :=
  (register_curator regEnvHigh IndexFund.default_fund "curator.near").2

/-- The state reached from `regFund` by a successful batch update. -/
def updFund : IndexFund :=
  (update_weights wEnv regFund wBatch).2

/-- C5: in every reachable registry state, the weight stored for every asset
lies in the inclusive range 0 to 10000 basis points. -/
theorem reachable_weight_in_range (st : IndexFund) (h : Reachable st) :
    ∀ kv ∈ st.assets, 0 ≤ kv.2.weight ∧ kv.2.weight ≤ 10000 := by
  induction h with
  | default_init =>
      intro kv hkv
      simp [IndexFund.default_fund] at hkv
  | new_init interval st hnew =>
      intro kv hkv
      unfold IndexFund.new at hnew
      split at hnew
      · cases hnew
        simp at hkv
      · exact absurd hnew (by simp)
  | register_step env st cand st' hreach hreg ih =>
      intro kv hkv
      obtain ⟨-, -, hst⟩ := register_curator_ok_elim env st cand st' hreg
      subst hst
      exact ih kv hkv
  | update_step env st updates st' hreach hupd ih =>
      intro kv hkv
      obtain ⟨hst, hsum, -⟩ := update_weights_ok_elim env st updates st' hupd
      refine ⟨Nat.zero_le _, ?_⟩
      have hmem : (kv.1, kv.2.weight) ∈ weightSnapshot st'.assets := by
        unfold weightSnapshot
        exact List.mem_map_of_mem _ hkv
      have hle := weight_le_totalWeight (weightSnapshot st'.assets) (kv.1, kv.2.weight) hmem
      have htot : totalWeight (weightSnapshot st'.assets) = 10000 := by
        subst hst
        simpa [weightSnapshot_commitUpdates] using hsum
      rw [htot] at hle
      exact hle

theorem reachable_weight_in_range_witness :
    0 ≤ (6000 : Nat) ∧ (6000 : Nat) ≤ 10000 :=
  reachable_weight_in_range updFund
    (Reachable.update_step wEnv regFund wBatch updFund
      (Reachable.register_step regEnvHigh IndexFund.default_fund "curator.near" regFund
        Reachable.default_init rfl)
      rfl)
    ("asset1.near", { balance := 0, weight := 6000, last_price := 0, last_updated := 100 })
    (by decide)

/-- A controlled registry already holding two assets with old timestamps. -/
def c6Fund : IndexFund :=
  { curator_address := some "curator.near"
    assets :=
      [("asset1.near", { balance := 0, weight := 6000, last_price := 0, last_updated := 5 }),
       ("asset2.near", { balance := 0, weight := 4000, last_price := 0, last_updated := 5 })]
    last_rebalance := 0
    rebalance_interval := 86400 }

/-- A curator-call environment at block timestamp 777. -/
def c6Env : Env :=
  { predecessor_account_id := "curator.near"
    block_timestamp := 777
    attached_deposit := 0
    storage_byte_cost := 0 }

/-- C6 counterexample: a successful call whose batch entry targets an asset
already in storage leaves that asset's `last_updated` at its old value 5
instead of refreshing it to the block timestamp 777: the commit loop only
overwrites the `weight` field of an existing holding. -/
theorem update_weights_keeps_old_timestamp_cex :
    (update_weights c6Env c6Fund [⟨6000, "asset1.near"⟩]).1 = none ∧
    c6Env.block_timestamp = 777 ∧
    (lookupKV ((update_weights c6Env c6Fund [⟨6000, "asset1.near"⟩]).2).assets
        "asset1.near").map AssetHolding.last_updated = some 5 ∧
    (5 : Nat) ≠ 777 :=
  ⟨rfl, rfl, rfl, by decide⟩

/-- C6 (amended): for every successful `update_weights` call and every asset
already present in persisted storage, the stored holding's `last_updated`
afterwards equals its value before the call — the timestamp is written only
for newly created holdings, never refreshed on existing ones. -/
theorem update_weights_preserves_last_updated (env : Env) (st : IndexFund)
    (updates : List AssetWeight) (st' : IndexFund) (k : AssetId) (h : AssetHolding)
    (hok : update_weights env st updates = (none, st'))
    (hex : lookupKV st.assets k = some h) :
    ∃ h2, lookupKV st'.assets k = some h2 ∧ h2.last_updated = h.last_updated := by
  obtain ⟨hst, -, -⟩ := update_weights_ok_elim env st updates st' hok
  have ha : st'.assets = commitUpdates env.block_timestamp st.assets updates := by
    rw [hst]
  obtain ⟨h2, hl, -, -, hu⟩ :=
    commitUpdates_frame env.block_timestamp updates st.assets k h hex
  exact ⟨h2, ha ▸ hl, hu⟩

theorem update_weights_preserves_last_updated_witness :
    ∃ h2, lookupKV ((update_weights c6Env c6Fund [⟨6000, "asset1.near"⟩]).2).assets
        "asset1.near" = some h2 ∧ h2.last_updated = (5 : Nat) :=
  update_weights_preserves_last_updated c6Env c6Fund [⟨6000, "asset1.near"⟩] _
    "asset1.near" { balance := 0, weight := 6000, last_price := 0, last_updated := 5 }
    rfl rfl

/-- A controlled registry holding assets with nonzero balances and prices. -/
def c7Fund : IndexFund :=
  { curator_address := some "curator.near"
    assets :=
      [("asset1.near", { balance := 42, weight := 6000, last_price := 9, last_updated := 5 }),
       ("asset2.near", { balance := 7, weight := 4000, last_price := 3, last_updated := 5 })]
    last_rebalance := 0
    rebalance_interval := 86400 }

/-- C7: for every successful `update_weights` call and every asset already in
persisted storage, the stored holding's `balance` and `last_price` are the
same afterwards as before the call. -/
theorem update_weights_frame_balance_price (env : Env) (st : IndexFund)
    (updates : List AssetWeight) (st' : IndexFund) (k : AssetId) (h : AssetHolding)
    (hok : update_weights env st updates = (none, st'))
    (hex : lookupKV st.assets k = some h) :
    ∃ h2, lookupKV st'.assets k = some h2 ∧ h2.balance = h.balance ∧
      h2.last_price = h.last_price := by
  obtain ⟨hst, -, -⟩ := update_weights_ok_elim env st updates st' hok
  have ha : st'.assets = commitUpdates env.block_timestamp st.assets updates := by
    rw [hst]
  obtain ⟨h2, hl, hb, hp, -⟩ :=
    commitUpdates_frame env.block_timestamp updates st.assets k h hex
  exact ⟨h2, ha ▸ hl, hb, hp⟩

theorem update_weights_frame_balance_price_witness :
    ∃ h2, lookupKV ((update_weights c6Env c7Fund
        [⟨3000, "asset1.near"⟩, ⟨7000, "asset2.near"⟩]).2).assets
        "asset1.near" = some h2 ∧ h2.balance = (42 : Nat) ∧ h2.last_price = (9 : Nat) :=
  update_weights_frame_balance_price c6Env c7Fund
    [⟨3000, "asset1.near"⟩, ⟨7000, "asset2.near"⟩] _ "asset1.near"
    { balance := 42, weight := 6000, last_price := 9, last_updated := 5 }
    rfl rfl

/-- A batch with a duplicated identifier: the later entry must win. -/
def dupBatch : List AssetWeight :=
  [⟨2000, "asset1.near"⟩, ⟨6000, "asset1.near"⟩, ⟨4000, "asset2.near"⟩]

/-- C8: when the batch contains several entries for the same identifier, both
the validation snapshot and (on success) the persisted holding carry the
weight of the last such entry in the sequence. -/
theorem update_weights_last_write_wins (env : Env) (st : IndexFund)
    (updates : List AssetWeight) (st' : IndexFund) (k : AssetId) (w : Nat)
    (hok : update_weights env st updates = (none, st'))
    (hlast : lastWeight updates k = some w) :
    lookupKV (applyUpdates (weightSnapshot st.assets) updates) k = some w ∧
    ∃ h2, lookupKV st'.assets k = some h2 ∧ h2.weight = w := by
  obtain ⟨hst, -, -⟩ := update_weights_ok_elim env st updates st' hok
  have ha : st'.assets = commitUpdates env.block_timestamp st.assets updates := by
    rw [hst]
  constructor
  · rw [lookupKV_applyUpdates]
    exact lastWeightFrom_some updates k w _ hlast
  · have hmap := weight_commitUpdates env.block_timestamp updates st.assets k
    rw [← ha] at hmap
    rw [lastWeightFrom_some updates k w ((lookupKV st.assets k).map AssetHolding.weight)
      hlast] at hmap
    cases hl : lookupKV st'.assets k with
    | none => rw [hl] at hmap; exact absurd hmap (by simp)
    | some h2 =>
        rw [hl] at hmap
        exact ⟨h2, rfl, by simpa using hmap⟩

theorem update_weights_last_write_wins_witness :
    lookupKV (applyUpdates (weightSnapshot wFund.assets) dupBatch) "asset1.near" =
      some 6000 ∧
    ∃ h2, lookupKV ((update_weights wEnv wFund dupBatch).2).assets "asset1.near" =
      some h2 ∧ h2.weight = 6000 :=
  update_weights_last_write_wins wEnv wFund dupBatch _ "asset1.near" 6000 rfl rfl

/-- C9: called by the curator with an empty batch, `update_weights` succeeds
and leaves the registry unchanged exactly when the stored weights already sum
to 10000; in particular it fails with the invalid-weight-sum error on an
empty asset map. -/
theorem update_weights_empty_batch (env : Env) (st : IndexFund) (curator : AccountId)
    (hc : st.curator_address = some curator)
    (hcall : env.predecessor_account_id = curator) :
    (update_weights env st [] = (none, st) ↔
      totalWeight (weightSnapshot st.assets) = 10000) ∧
    (st.assets = [] →
      update_weights env st [] = (some ContractError.invalidWeightSum, st)) := by
  have happly : applyUpdates (weightSnapshot st.assets) [] = weightSnapshot st.assets := rfl
  constructor
  · constructor
    · intro h
      obtain ⟨-, hsum, -⟩ := update_weights_ok_elim env st [] st h
      rw [happly] at hsum
      exact hsum
    · intro hsum
      simp only [update_weights, hc]
      rw [if_neg (by simp [hcall])]
      rw [if_neg (by rw [happly, hsum]; simp)]
      rw [← hc]
      rfl
  · intro hassets
    simp only [update_weights, hc]
    rw [if_neg (by simp [hcall])]
    rw [if_pos (by rw [happly, hassets]; simp [weightSnapshot, totalWeight])]

theorem update_weights_empty_batch_witness :
    (update_weights wEnv c7Fund [] = (none, c7Fund) ↔
      totalWeight (weightSnapshot c7Fund.assets) = 10000) ∧
    (c7Fund.assets = [] →
      update_weights wEnv c7Fund [] = (some ContractError.invalidWeightSum, c7Fund)) :=
  update_weights_empty_batch wEnv c7Fund "curator.near" rfl rfl

/-- A registration environment agreeing with `regEnvHigh` on deposit and
storage cost but with a different caller identity. -/
def regEnvHigh2 : Env :=
  { predecessor_account_id := "somebody.near"
    block_timestamp := 0
    attached_deposit := 1000000
    storage_byte_cost := 1 }

/-- C10: with no curator set and a sufficient deposit, registration succeeds
with any candidate and its outcome does not depend on the caller identity:
two environments differing only outside the deposit and storage cost produce
identical results. -/
theorem register_curator_caller_independent (e1 e2 : Env) (st : IndexFund)
    (cand : AccountId) (hnone : st.curator_address = none)
    (hdep : e1.storage_byte_cost * 100 ≤ e1.attached_deposit)
    (hdep2 : e2.attached_deposit = e1.attached_deposit)
    (hcost : e2.storage_byte_cost = e1.storage_byte_cost) :
    register_curator e1 st cand = (none, { st with curator_address := some cand }) ∧
    register_curator e2 st cand = register_curator e1 st cand := by
  have h1 : register_curator e1 st cand =
      (none, { st with curator_address := some cand }) := by
    simp only [register_curator, hnone]
    rw [if_neg (Nat.not_lt.mpr hdep)]
  refine ⟨h1, ?_⟩
  rw [h1]
  simp only [register_curator, hnone]
  rw [if_neg (by rw [hdep2, hcost]; exact Nat.not_lt.mpr hdep)]

theorem register_curator_caller_independent_witness :
    register_curator regEnvHigh IndexFund.default_fund "curator.near" =
      (none, { IndexFund.default_fund with curator_address := some "curator.near" }) ∧
    register_curator regEnvHigh2 IndexFund.default_fund "curator.near" =
      register_curator regEnvHigh IndexFund.default_fund "curator.near" :=
  register_curator_caller_independent regEnvHigh regEnvHigh2 IndexFund.default_fund
    "curator.near" rfl (by decide) rfl rfl

end IndexFundContract
